import Mathlib

/-!
Verification of the hardware-button event processor
(`src/apps/system/js/hardware_buttons.js`).

The module is a finite state machine over five states (base, home, sleep,
volume, wake).  Raw button signals are handed to the current state's
`process` method; states arm single-shot timers on entry (`setTimeout`)
and cancel them on exit (`clearTimeout`); timer callbacks fire high-level
events and transition the machine.

The embedding below models the machine state (current state tag, the
per-state-object timer handles and flags, which persist across entries
exactly like the fields of the JavaScript state objects), the scheduler
(a list of pending timers with fresh integer handles and absolute
deadlines), and a fake clock: `elapse` advances time and runs every due
callback at its deadline, in deadline order, exactly as real timers would
fire.  `ScreenManager.screenEnabled` is passed as a boolean parameter to
`process`, read at the moment a raw signal is handled.
-/

namespace HardwareButtons

/-- The eight raw hardware-button signals (`e.detail.type` values). -/
inductive Signal
  | homePress
  | homeRelease
  | sleepPress
  | sleepRelease
  | volumeUpPress
  | volumeUpRelease
  | volumeDownPress
  | volumeDownRelease
deriving DecidableEq, Repr

/-- The high-level events fired at the window (`fire(type)`). -/
inductive HEvent
  | home
  | holdhome
  | sleep
  | wake
  | holdsleep
  | volumeup
  | volumedown
  | homeSleep
  | homeVolume
deriving DecidableEq, Repr

/-- `HOLD_INTERVAL = 1500`: how long for press and hold Home or Sleep. -/
def HOLD_INTERVAL : Nat := 1500

/-- `REPEAT_DELAY = 700`: how long before volume autorepeat begins. -/
def REPEAT_DELAY : Nat := 700

/-- `REPEAT_INTERVAL = 100`: how fast the autorepeat is. -/
def REPEAT_INTERVAL : Nat := 100

/-- Tags for the five state objects of the machine. -/
inductive StateTag
  | base
  | home
  | sleep
  | volume
  | wake
deriving DecidableEq, Repr

/-- The callbacks passed to `setTimeout` in the source: `homeState.enter`'s
hold callback, `sleepState.enter`'s hold callback, `volumeState.repeat`
(bound), and `wakeState.enter`'s hold callback, which closes over the press
type that caused the wake. -/
inductive Callback
  | holdHomeCb
  | holdSleepCb
  | volumeRepeatCb
  | wakeHoldCb (pressType : Option Signal)
deriving DecidableEq, Repr

/-- The state object that armed a given callback. -/
def cbOwner : Callback → StateTag
  | .holdHomeCb => .home
  | .holdSleepCb => .sleep
  | .volumeRepeatCb => .volume
  | .wakeHoldCb _ => .wake

/-- A pending timer in the scheduler: its handle, absolute deadline and
callback. -/
structure TimerEntry where
  id : Nat
  deadline : Nat
  cb : Callback
deriving DecidableEq, Repr

/-- The whole machine: current state (`state` variable), the mutable fields
of the five state objects (`timer` handles, `volumeState.direction`,
`volumeState.repeating`, `wakeState.delegateState`), and the scheduler
(current time, next fresh timer handle, pending timers). -/
structure Machine where
  tag : StateTag
  homeTimer : Option Nat
  sleepTimer : Option Nat
  volumeTimer : Option Nat
  wakeTimer : Option Nat
  volumeDirection : Option Signal
  volumeRepeating : Bool
  wakeDelegate : Option StateTag
  now : Nat
  nextId : Nat
  pending : List TimerEntry
deriving DecidableEq, Repr

/-- `setTimeout(cb, delay)`: register the callback at deadline `now + delay`
and return the fresh handle.  Handles start at 1, as the JavaScript
environment never returns a falsy handle. -/
def setTimeoutM (m : Machine) (cb : Callback) (delay : Nat) : Machine × Nat :=
  ({ m with nextId := m.nextId + 1,
            pending := m.pending ++ [⟨m.nextId, m.now + delay, cb⟩] }, m.nextId)

/-- `clearTimeout(handle)`: drop the pending timer with this handle; a no-op
when the timer already fired or was never armed. -/
def clearTimeoutM (m : Machine) (i : Nat) : Machine :=
  { m with pending := m.pending.filter (fun t => t.id != i) }

/-- The `exit` method of the current state object: Home, Sleep, Volume and
Wake clear their own timer if set (`if (this.timer) clearTimeout; null`);
Base has no `exit`. -/
def exitState (m : Machine) : Machine :=
  match m.tag with
  | .base => m
  | .home =>
      match m.homeTimer with
      | some i => { clearTimeoutM m i with homeTimer := none }
      | none => m
  | .sleep =>
      match m.sleepTimer with
      | some i => { clearTimeoutM m i with sleepTimer := none }
      | none => m
  | .volume =>
      match m.volumeTimer with
      | some i => { clearTimeoutM m i with volumeTimer := none }
      | none => m
  | .wake =>
      match m.wakeTimer with
      | some i => { clearTimeoutM m i with wakeTimer := none }
      | none => m

/-- The `enter` method of the state being entered, receiving the signal that
caused the transition (`none` models the `setState(baseState)` calls made
from timer callbacks without a type argument).  Base has no `enter`; Home
and Sleep arm their hold timer; Volume records the direction, resets the
repeat flag and arms the first autorepeat timer; Wake picks the delegate
state from the press type and arms a hold timer whose callback closes over
that press type. -/
def enterState (m : Machine) (s : StateTag) (ty : Option Signal) : Machine :=
  match s with
  | .base => m
  | .home =>
      let p := setTimeoutM m .holdHomeCb HOLD_INTERVAL
      { p.1 with homeTimer := some p.2 }
  | .sleep =>
      let p := setTimeoutM m .holdSleepCb HOLD_INTERVAL
      { p.1 with sleepTimer := some p.2 }
  | .volume =>
      let m0 := { m with volumeDirection := ty, volumeRepeating := false }
      let p := setTimeoutM m0 .volumeRepeatCb REPEAT_DELAY
      { p.1 with volumeTimer := some p.2 }
  | .wake =>
      let d : StateTag := if ty = some Signal.homePress then .home else .sleep
      let m0 := { m with wakeDelegate := some d }
      let p := setTimeoutM m0 (.wakeHoldCb ty) HOLD_INTERVAL
      { p.1 with wakeTimer := some p.2 }

/-- `setState(s, type)`: exit the current state, switch, enter the new one. -/
def setState (m : Machine) (s : StateTag) (ty : Option Signal) : Machine :=
  enterState { exitState m with tag := s } s ty

/-- The result of one `process` call: the new machine, the high-level events
fired (in order), and whether the unexpected-key error path was logged. -/
structure Out where
  machine : Machine
  events : List HEvent
  warned : Bool
deriving DecidableEq, Repr

/-- Run a timer callback (the timer itself has already been removed from the
pending list, as a fired timeout is no longer pending).  `volumeState.repeat`
sets the repeating flag, fires per the recorded direction and rearms itself;
the hold callbacks fire their event and return to base. -/
def runCallback (m : Machine) (cb : Callback) : Machine × List HEvent :=
  match cb with
  | .holdHomeCb => (setState m .base none, [.holdhome])
  | .holdSleepCb => (setState m .base none, [.holdsleep])
  | .volumeRepeatCb =>
      let m0 := { m with volumeRepeating := true }
      let ev : HEvent :=
        if m0.volumeDirection = some Signal.volumeUpPress then .volumeup else .volumedown
      let p := setTimeoutM m0 .volumeRepeatCb REPEAT_INTERVAL
      ({ p.1 with volumeTimer := some p.2 }, [ev])
  | .wakeHoldCb ty =>
      let evs : List HEvent :=
        if ty = some Signal.homePress then [.holdhome]
        else if ty = some Signal.sleepPress then [.holdsleep]
        else []
      (setState m .base ty, evs)

/-- `baseState.process`: presses of Home/Sleep consult the screen state and
either wake (screen off) or enter the dedicated state; volume presses enter
Volume; releases are ignored (expected after combos).  All eight raw
signals are handled, so the trailing `console.error` is unreachable here. -/
def baseProcess (screenEnabled : Bool) (m : Machine) (ty : Signal) : Out :=
  match ty with
  | .homePress =>
      if !screenEnabled then
        { machine := setState m .wake (some ty), events := [.wake], warned := false }
      else
        { machine := setState m .home (some ty), events := [], warned := false }
  | .sleepPress =>
      if !screenEnabled then
        { machine := setState m .wake (some ty), events := [.wake], warned := false }
      else
        { machine := setState m .sleep (some ty), events := [], warned := false }
  | .volumeUpPress =>
      { machine := setState m .volume (some ty), events := [], warned := false }
  | .volumeDownPress =>
      { machine := setState m .volume (some ty), events := [], warned := false }
  | _ => { machine := m, events := [], warned := false }

/-- `homeState.process`. -/
def homeProcess (m : Machine) (ty : Signal) : Out :=
  match ty with
  | .homeRelease =>
      { machine := setState m .base (some ty), events := [.home], warned := false }
  | .sleepPress =>
      { machine := setState m .base (some ty), events := [.homeSleep], warned := false }
  | .volumeUpPress =>
      { machine := setState m .base (some ty), events := [.homeVolume], warned := false }
  | .volumeDownPress =>
      { machine := setState m .base (some ty), events := [.homeVolume], warned := false }
  | _ =>
      { machine := setState m .base (some ty), events := [], warned := true }

/-- `sleepState.process`. -/
def sleepProcess (m : Machine) (ty : Signal) : Out :=
  match ty with
  | .sleepRelease =>
      { machine := setState m .base (some ty), events := [.sleep], warned := false }
  | .homePress =>
      { machine := setState m .base (some ty), events := [.homeSleep], warned := false }
  | .volumeUpPress =>
      { machine := setState m .volume (some ty), events := [], warned := false }
  | .volumeDownPress =>
      { machine := setState m .volume (some ty), events := [], warned := false }
  | _ =>
      { machine := setState m .base (some ty), events := [], warned := true }

/-- `volumeState.process`: a matching-direction release fires the event only
if no autorepeat has happened, then returns to base; a mismatched-direction
release falls through the `break` to the unexpected-key error path (log and
return to base); anything else hits the `default:` arm and is ignored. -/
def volumeProcess (m : Machine) (ty : Signal) : Out :=
  match ty with
  | .homePress =>
      { machine := setState m .base (some ty), events := [.homeVolume], warned := false }
  | .sleepPress =>
      { machine := setState m .sleep (some ty), events := [], warned := false }
  | .volumeUpRelease =>
      if m.volumeDirection = some Signal.volumeUpPress then
        { machine := setState m .base (some ty),
          events := if m.volumeRepeating then [] else [.volumeup], warned := false }
      else
        { machine := setState m .base (some ty), events := [], warned := true }
  | .volumeDownRelease =>
      if m.volumeDirection = some Signal.volumeDownPress then
        { machine := setState m .base (some ty),
          events := if m.volumeRepeating then [] else [.volumedown], warned := false }
      else
        { machine := setState m .base (some ty), events := [], warned := true }
  | _ => { machine := m, events := [], warned := false }

/-- `this.delegateState.process(type)` in `wakeState.process`: dispatch to
the delegate state object's `process`, on the machine whose *current* state
is still Wake (so a `setState` made by the delegate exits Wake).  The
delegate is always set by `enter` before any signal is processed in Wake,
so the `none` arm models a call that never occurs. -/
def delegateProcess (m : Machine) (ty : Signal) : Out :=
  match m.wakeDelegate with
  | some .home => homeProcess m ty
  | some .sleep => sleepProcess m ty
  | _ => { machine := m, events := [], warned := false }

/-- `wakeState.process`: a Home or Sleep release silently returns to base;
everything else is forwarded to the delegate state's `process`. -/
def wakeProcess (m : Machine) (ty : Signal) : Out :=
  match ty with
  | .homeRelease =>
      { machine := setState m .base (some ty), events := [], warned := false }
  | .sleepRelease =>
      { machine := setState m .base (some ty), events := [], warned := false }
  | _ => delegateProcess m ty

/-- The `mozChromeEvent` listener: hand the raw signal to the current
state's `process`.  `screenEnabled` is the value of
`ScreenManager.screenEnabled` at that moment. -/
def process (screenEnabled : Bool) (m : Machine) (ty : Signal) : Out :=
  match m.tag with
  | .base => baseProcess screenEnabled m ty
  | .home => homeProcess m ty
  | .sleep => sleepProcess m ty
  | .volume => volumeProcess m ty
  | .wake => wakeProcess m ty

/-- The earliest pending timer due at or before time `T` (smallest deadline;
earliest-armed wins ties, matching insertion order). -/
def dueAt (l : List TimerEntry) (T : Nat) : Option TimerEntry :=
  match l with
  | [] => none
  | t :: rest =>
      if t.deadline ≤ T then
        match dueAt rest T with
        | some u => if u.deadline < t.deadline then some u else some t
        | none => some t
      else dueAt rest T

/-- Run every pending timer due at or before `T`, each at its own deadline
(the clock jumps to the deadline before the callback runs, so a callback
that rearms computes its new deadline from its own firing time), then set
the clock to `T`.  Structured on fuel; `elapse` supplies enough. -/
def runDue : Nat → Machine → Nat → Machine × List HEvent
  | 0, m, T => ({ m with now := T }, [])
  | fuel + 1, m, T =>
      match dueAt m.pending T with
      | none => ({ m with now := T }, [])
      | some t =>
          let m1 := { m with now := t.deadline,
                             pending := m.pending.filter (fun u => u.id != t.id) }
          let r := runCallback m1 t.cb
          let r2 := runDue fuel r.1 T
          (r2.1, r.2 ++ r2.2)

/-- Let `d` milliseconds pass: fire every due callback, collect the events.
The fuel is adequate because each firing either rearms at a strictly later
deadline (at least `REPEAT_INTERVAL = 100` further on) or arms nothing. -/
def elapse (m : Machine) (d : Nat) : Machine × List HEvent :=
  runDue (m.pending.length + d + 1) m (m.now + d)

/-- One external stimulus: a raw signal (with the screen state at that
moment) or the passage of time. -/
inductive Input
  | raw (screenEnabled : Bool) (ty : Signal)
  | wait (d : Nat)
deriving DecidableEq, Repr

/-- Apply one stimulus, returning the events it caused. -/
def step (m : Machine) (i : Input) : Machine × List HEvent :=
  match i with
  | .raw sc ty => ((process sc m ty).machine, (process sc m ty).events)
  | .wait d => elapse m d

/-- Run a list of stimuli, returning the final machine and the per-step
event lists. -/
def execFrom (m : Machine) : List Input → Machine × List (List HEvent)
  | [] => (m, [])
  | i :: rest =>
      let p := step m i
      let q := execFrom p.1 rest
      (q.1, p.2 :: q.2)

/-- The machine as the module leaves it at load time (`setState(baseState)`
from an undefined state: no exit, and Base has no enter). -/
def init : Machine :=
  { tag := .base, homeTimer := none, sleepTimer := none, volumeTimer := none,
    wakeTimer := none, volumeDirection := none, volumeRepeating := false,
    wakeDelegate := none, now := 0, nextId := 1, pending := [] }

/-- Run a list of stimuli from the initial machine. -/
def exec (l : List Input) : Machine × List (List HEvent) :=
  execFrom init l

/-- The machine right after a Home press with the display on. -/
def pressHomeM : Machine := (exec [.raw true .homePress]).1

/-- The machine right after a VolumeUp press. -/
def pressVolUpM : Machine := (exec [.raw true .volumeUpPress]).1

/-- The machine right after a VolumeDown press. -/
def pressVolDownM : Machine := (exec [.raw true .volumeDownPress]).1

/-- The machine right after a Sleep press with the display off. -/
def wakeSleepM : Machine := (exec [.raw false .sleepPress]).1

/-- The machine after the wake-hold timer of `wakeSleepM` has fired. -/
def wakeHoldFiredM : Machine :=
  (runCallback { wakeSleepM with now := HOLD_INTERVAL, pending := [] }
    (.wakeHoldCb (some .sleepPress))).1

/-- Is this callback `wakeState`'s hold callback? -/
def isWakeHold : Callback → Bool
  | .wakeHoldCb _ => true
  | _ => false

/-- The timer-bookkeeping invariant of the machine: the non-base states own
exactly one pending timer, armed on entry and recorded in their own `timer`
field, with the callback belonging to the current state; base owns none;
the `timer` fields of all non-current states are cleared. -/
def invCheck (m : Machine) : Bool :=
  match m.tag, m.pending with
  | .base, [] =>
      m.homeTimer == none && m.sleepTimer == none &&
      m.volumeTimer == none && m.wakeTimer == none
  | .home, [t] =>
      t.cb == .holdHomeCb && m.homeTimer == some t.id &&
      m.sleepTimer == none && m.volumeTimer == none && m.wakeTimer == none
  | .sleep, [t] =>
      t.cb == .holdSleepCb && m.sleepTimer == some t.id &&
      m.homeTimer == none && m.volumeTimer == none && m.wakeTimer == none
  | .volume, [t] =>
      t.cb == .volumeRepeatCb && m.volumeTimer == some t.id &&
      m.homeTimer == none && m.sleepTimer == none && m.wakeTimer == none
  | .wake, [t] =>
      isWakeHold t.cb && m.wakeTimer == some t.id &&
      m.homeTimer == none && m.sleepTimer == none && m.volumeTimer == none
  | _, _ => false

/-- Propositional form of the invariant. -/
abbrev Inv (m : Machine) : Prop := invCheck m = true

lemma setState_inv (m : Machine) (s : StateTag) (ty : Option Signal) (h : Inv m) :
    Inv (setState m s ty) := by
  obtain ⟨tag, hT, sT, vT, wT, dir, rep, del, now, nid, pend⟩ := m
  unfold Inv invCheck at h
  cases tag <;>
  rcases pend with _ | ⟨⟨tid, tdl, tcb⟩, _ | ⟨u, rest⟩⟩ <;>
  (try cases tcb) <;>
  simp_all [Bool.and_eq_true, beq_iff_eq, isWakeHold] <;>
  cases s <;>
  simp_all [setState, exitState, enterState, clearTimeoutM, setTimeoutM,
            Inv, invCheck, isWakeHold]

lemma inv_set_now (m : Machine) (T : Nat) (h : Inv m) : Inv { m with now := T } := by
  obtain ⟨tag, hT, sT, vT, wT, dir, rep, del, now, nid, pend⟩ := m
  unfold Inv invCheck at h ⊢
  exact h

lemma inv_fields (m : Machine) (h : Inv m) :
    (m.tag ≠ .home → m.homeTimer = none) ∧ (m.tag ≠ .sleep → m.sleepTimer = none) ∧
    (m.tag ≠ .volume → m.volumeTimer = none) ∧ (m.tag ≠ .wake → m.wakeTimer = none) := by
  obtain ⟨tag, hT, sT, vT, wT, dir, rep, del, now, nid, pend⟩ := m
  unfold Inv invCheck at h
  cases tag <;>
  rcases pend with _ | ⟨⟨tid, tdl, tcb⟩, _ | ⟨u, rest⟩⟩ <;>
  simp_all [Bool.and_eq_true, beq_iff_eq]

lemma inv_pending (m : Machine) (h : Inv m) :
    m.pending = [] ∨ ∃ t, m.pending = [t] ∧ cbOwner t.cb = m.tag := by
  obtain ⟨tag, hT, sT, vT, wT, dir, rep, del, now, nid, pend⟩ := m
  unfold Inv invCheck at h
  cases tag <;>
  rcases pend with _ | ⟨⟨tid, tdl, tcb⟩, _ | ⟨u, rest⟩⟩ <;>
  (try cases tcb) <;>
  simp_all [Bool.and_eq_true, beq_iff_eq, isWakeHold, cbOwner]

lemma runCallback_inv (m : Machine) (cb : Callback)
    (hp : m.pending = [])
    (htag : m.tag = cbOwner cb)
    (h1 : m.tag ≠ .home → m.homeTimer = none)
    (h2 : m.tag ≠ .sleep → m.sleepTimer = none)
    (h3 : m.tag ≠ .volume → m.volumeTimer = none)
    (h4 : m.tag ≠ .wake → m.wakeTimer = none) :
    Inv (runCallback m cb).1 := by
  obtain ⟨tag, hT, sT, vT, wT, dir, rep, del, now, nid, pend⟩ := m
  cases cb with
  | holdHomeCb =>
      simp_all [cbOwner]
      cases hT <;>
        simp_all [runCallback, setState, exitState, enterState, clearTimeoutM,
                  setTimeoutM, Inv, invCheck, isWakeHold]
  | holdSleepCb =>
      simp_all [cbOwner]
      cases sT <;>
        simp_all [runCallback, setState, exitState, enterState, clearTimeoutM,
                  setTimeoutM, Inv, invCheck, isWakeHold]
  | volumeRepeatCb =>
      simp_all [cbOwner]
      simp_all [runCallback, setTimeoutM, Inv, invCheck, isWakeHold]
  | wakeHoldCb ty =>
      simp_all [cbOwner]
      cases wT <;>
        simp_all [runCallback, setState, exitState, enterState, clearTimeoutM,
                  setTimeoutM, Inv, invCheck, isWakeHold]

lemma dueAt_singleton (t : TimerEntry) (T : Nat) :
    dueAt [t] T = if t.deadline ≤ T then some t else none := by
  simp [dueAt]

lemma runDue_inv : ∀ (fuel : Nat) (m : Machine) (T : Nat),
    Inv m → Inv (runDue fuel m T).1 := by
  intro fuel
  induction fuel with
  | zero => intro m T h; exact inv_set_now m T h
  | succ n ih =>
      intro m T h
      rcases inv_pending m h with hp | ⟨t, hp, hown⟩
      · simp only [runDue, hp, dueAt]
        simpa [hp] using inv_set_now m T h
      · by_cases hd : t.deadline ≤ T
        · simp only [runDue, hp, dueAt_singleton, hd, if_true]
          apply ih
          apply runCallback_inv
          · simp [hp]
          · simpa using hown.symm
          · intro hh; simpa using (inv_fields m h).1 (by simpa using hh)
          · intro hh; simpa using (inv_fields m h).2.1 (by simpa using hh)
          · intro hh; simpa using (inv_fields m h).2.2.1 (by simpa using hh)
          · intro hh; simpa using (inv_fields m h).2.2.2 (by simpa using hh)
        · simp only [runDue, hp, dueAt_singleton, hd, if_false]
          simpa [hp] using inv_set_now m T h

lemma elapse_inv (m : Machine) (d : Nat) (h : Inv m) : Inv (elapse m d).1 :=
  runDue_inv _ m _ h

lemma baseProcess_inv (sc : Bool) (m : Machine) (ty : Signal) (h : Inv m) :
    Inv (baseProcess sc m ty).machine := by
  cases ty <;> cases sc <;> simp only [baseProcess, Bool.not_true, Bool.not_false,
    if_true, if_false, ite_true, ite_false] <;>
  first | exact setState_inv _ _ _ h | exact h

lemma homeProcess_inv (m : Machine) (ty : Signal) (h : Inv m) :
    Inv (homeProcess m ty).machine := by
  cases ty <;> simp only [homeProcess] <;> exact setState_inv _ _ _ h

lemma sleepProcess_inv (m : Machine) (ty : Signal) (h : Inv m) :
    Inv (sleepProcess m ty).machine := by
  cases ty <;> simp only [sleepProcess] <;> exact setState_inv _ _ _ h

lemma volumeProcess_inv (m : Machine) (ty : Signal) (h : Inv m) :
    Inv (volumeProcess m ty).machine := by
  cases ty <;> simp only [volumeProcess] <;>
  first
  | exact setState_inv _ _ _ h
  | exact h
  | (split <;> exact setState_inv _ _ _ h)

lemma delegateProcess_inv (m : Machine) (ty : Signal) (h : Inv m) :
    Inv (delegateProcess m ty).machine := by
  unfold delegateProcess
  rcases hdel : m.wakeDelegate with _ | d
  · simp only [hdel]; exact h
  · cases d <;> simp only [hdel] <;>
      first
      | exact h
      | exact homeProcess_inv m ty h
      | exact sleepProcess_inv m ty h

lemma wakeProcess_inv (m : Machine) (ty : Signal) (h : Inv m) :
    Inv (wakeProcess m ty).machine := by
  cases ty <;> simp only [wakeProcess] <;>
  first
  | exact setState_inv _ _ _ h
  | exact delegateProcess_inv m _ h

lemma process_inv (sc : Bool) (m : Machine) (ty : Signal) (h : Inv m) :
    Inv (process sc m ty).machine := by
  cases htag : m.tag <;> simp only [process, htag] <;>
  first
  | exact baseProcess_inv _ _ _ h
  | exact homeProcess_inv _ _ h
  | exact sleepProcess_inv _ _ h
  | exact volumeProcess_inv _ _ h
  | exact wakeProcess_inv _ _ h

lemma step_inv (m : Machine) (i : Input) (h : Inv m) : Inv (step m i).1 := by
  cases i with
  | raw sc ty => exact process_inv sc m ty h
  | wait d => exact elapse_inv m d h

lemma execFrom_inv (l : List Input) : ∀ m, Inv m → Inv (execFrom m l).1 := by
  induction l with
  | nil => intro m h; exact h
  | cons i rest ih => intro m h; exact ih _ (step_inv m i h)

lemma inv_init : Inv init := by decide

lemma exec_inv (l : List Input) : Inv (exec l).1 :=
  execFrom_inv l init inv_init

lemma inv_components (m : Machine) (h : Inv m) :
    m.pending.length ≤ 1 ∧ ∀ t ∈ m.pending, cbOwner t.cb = m.tag := by
  rcases inv_pending m h with hp | ⟨t, hp, hown⟩ <;> simp_all

lemma exit_pending (m : Machine) (h : Inv m) : (exitState m).pending = [] := by
  obtain ⟨tag, hT, sT, vT, wT, dir, rep, del, now, nid, pend⟩ := m
  unfold Inv invCheck at h
  cases tag <;>
  rcases pend with _ | ⟨⟨tid, tdl, tcb⟩, _ | ⟨u, rest⟩⟩ <;>
  simp_all [Bool.and_eq_true, beq_iff_eq, exitState, clearTimeoutM, isWakeHold]

lemma exitState_eta (m : Machine) :
    (exitState m).now = m.now ∧ (exitState m).nextId = m.nextId ∧
    (exitState m).tag = m.tag ∧ (exitState m).volumeDirection = m.volumeDirection ∧
    (exitState m).volumeRepeating = m.volumeRepeating ∧
    (exitState m).wakeDelegate = m.wakeDelegate := by
  obtain ⟨tag, hT, sT, vT, wT, dir, rep, del, now, nid, pend⟩ := m
  cases tag <;> cases hT <;> cases sT <;> cases vT <;> cases wT <;>
    simp [exitState, clearTimeoutM]

lemma warned_base_of_setState (m : Machine) (ty : Option Signal) (h : Inv m) :
    (setState m .base ty).tag = .base ∧ (setState m .base ty).pending = [] :=
  ⟨rfl, exit_pending m h⟩

lemma runDue_nil (fuel T : Nat) (m : Machine) (h : m.pending = []) :
    runDue fuel m T = ({ m with now := T }, []) := by
  cases fuel <;> simp [runDue, h, dueAt]

lemma elapse_no_due (m : Machine) (d : Nat)
    (h : dueAt m.pending (m.now + d) = none) :
    elapse m d = ({ m with now := m.now + d }, []) := by
  unfold elapse
  simp [runDue, h]

lemma elapse_not_yet (m : Machine) (d i dl : Nat) (cb : Callback)
    (hp : m.pending = [⟨i, dl, cb⟩]) (hd : ¬ dl ≤ m.now + d) :
    elapse m d = ({ m with now := m.now + d }, []) := by
  apply elapse_no_due
  rw [hp, dueAt_singleton]
  simp [hd]

lemma elapse_fire_one (m : Machine) (d i dl : Nat) (cb : Callback)
    (hp : m.pending = [⟨i, dl, cb⟩]) (hd : dl ≤ m.now + d)
    (hpost : (runCallback { m with now := dl, pending := [] } cb).1.pending = []) :
    elapse m d =
      ({ (runCallback { m with now := dl, pending := [] } cb).1
          with now := m.now + d },
       (runCallback { m with now := dl, pending := [] } cb).2) := by
  unfold elapse
  rw [hp]
  simp only [List.length_singleton, runDue, hp, dueAt_singleton, hd, if_true,
             ite_true, bne_self_eq_false, List.filter_cons_of_neg, List.filter_nil,
             Bool.false_eq_true, not_false_eq_true]
  rw [runDue_nil _ _ _ hpost]
  simp

lemma setState_base_pending_of_empty (x : Machine) (ty : Option Signal)
    (hp : x.pending = []) : (setState x .base ty).pending = [] := by
  unfold setState enterState
  obtain ⟨tag, hT, sT, vT, wT, dir, rep, del, now, nid, pend⟩ := x
  cases tag <;> cases hT <;> cases sT <;> cases vT <;> cases wT <;>
    simp_all [exitState, clearTimeoutM]

lemma exec_one (i1 : Input) (m1 : Machine) (e1 : List HEvent)
    (h1 : step init i1 = (m1, e1)) : exec [i1] = (m1, [e1]) := by
  simp [exec, execFrom, h1]

lemma exec_two (i1 i2 : Input) (m1 m2 : Machine) (e1 e2 : List HEvent)
    (h1 : step init i1 = (m1, e1)) (h2 : step m1 i2 = (m2, e2)) :
    exec [i1, i2] = (m2, [e1, e2]) := by
  simp [exec, execFrom, h1, h2]

lemma exec_three (i1 i2 i3 : Input) (m1 m2 m3 : Machine) (e1 e2 e3 : List HEvent)
    (h1 : step init i1 = (m1, e1)) (h2 : step m1 i2 = (m2, e2))
    (h3 : step m2 i3 = (m3, e3)) :
    exec [i1, i2, i3] = (m3, [e1, e2, e3]) := by
  simp [exec, execFrom, h1, h2, h3]

lemma baseProcess_not_warned (sc : Bool) (m : Machine) (ty : Signal) :
    (baseProcess sc m ty).warned = false := by
  cases ty <;> cases sc <;> simp [baseProcess]

lemma homeProcess_warned (m : Machine) (ty : Signal) (h : Inv m)
    (hw : (homeProcess m ty).warned = true) :
    (homeProcess m ty).events = [] ∧ (homeProcess m ty).machine.tag = .base ∧
    (homeProcess m ty).machine.pending = [] := by
  cases ty <;> simp only [homeProcess] at hw ⊢ <;>
  first
  | exact ⟨trivial, (warned_base_of_setState m _ h).1, (warned_base_of_setState m _ h).2⟩
  | simp at hw

lemma sleepProcess_warned (m : Machine) (ty : Signal) (h : Inv m)
    (hw : (sleepProcess m ty).warned = true) :
    (sleepProcess m ty).events = [] ∧ (sleepProcess m ty).machine.tag = .base ∧
    (sleepProcess m ty).machine.pending = [] := by
  cases ty <;> simp only [sleepProcess] at hw ⊢ <;>
  first
  | exact ⟨trivial, (warned_base_of_setState m _ h).1, (warned_base_of_setState m _ h).2⟩
  | simp at hw

lemma volumeProcess_warned (m : Machine) (ty : Signal) (h : Inv m)
    (hw : (volumeProcess m ty).warned = true) :
    (volumeProcess m ty).events = [] ∧ (volumeProcess m ty).machine.tag = .base ∧
    (volumeProcess m ty).machine.pending = [] := by
  cases ty with
  | volumeUpRelease =>
      by_cases hdir : m.volumeDirection = some Signal.volumeUpPress
      · simp only [volumeProcess, if_pos hdir] at hw
        exact absurd hw (by simp)
      · simp only [volumeProcess, if_neg hdir] at hw ⊢
        exact ⟨trivial, (warned_base_of_setState m _ h).1, (warned_base_of_setState m _ h).2⟩
  | volumeDownRelease =>
      by_cases hdir : m.volumeDirection = some Signal.volumeDownPress
      · simp only [volumeProcess, if_pos hdir] at hw
        exact absurd hw (by simp)
      · simp only [volumeProcess, if_neg hdir] at hw ⊢
        exact ⟨trivial, (warned_base_of_setState m _ h).1, (warned_base_of_setState m _ h).2⟩
  | homePress => exact absurd hw (by simp [volumeProcess])
  | sleepPress => exact absurd hw (by simp [volumeProcess])
  | homeRelease => exact absurd hw (by simp [volumeProcess])
  | sleepRelease => exact absurd hw (by simp [volumeProcess])
  | volumeUpPress => exact absurd hw (by simp [volumeProcess])
  | volumeDownPress => exact absurd hw (by simp [volumeProcess])

lemma delegateProcess_warned (m : Machine) (ty : Signal) (h : Inv m)
    (hw : (delegateProcess m ty).warned = true) :
    (delegateProcess m ty).events = [] ∧ (delegateProcess m ty).machine.tag = .base ∧
    (delegateProcess m ty).machine.pending = [] := by
  unfold delegateProcess at hw ⊢
  rcases hdel : m.wakeDelegate with _ | d
  · simp only [hdel] at hw
    simp at hw
  · cases d with
    | home =>
        simp only [hdel] at hw ⊢
        exact homeProcess_warned m ty h hw
    | sleep =>
        simp only [hdel] at hw ⊢
        exact sleepProcess_warned m ty h hw
    | base => simp only [hdel] at hw; simp at hw
    | volume => simp only [hdel] at hw; simp at hw
    | wake => simp only [hdel] at hw; simp at hw

lemma wakeProcess_delegated (m : Machine) (ty : Signal) (h : Inv m)
    (hw : (wakeProcess m ty).warned = true) :
    (wakeProcess m ty).events = [] ∧ (wakeProcess m ty).machine.tag = .base ∧
    (wakeProcess m ty).machine.pending = [] := by
  cases ty <;> simp only [wakeProcess] at hw ⊢ <;>
  first
  | exact delegateProcess_warned m _ h hw
  | simp at hw

/-- Claim C2: along every run of the machine, the pending timers of the
scheduler are exactly the (at most one) timer armed by the current state and
recorded in its own `timer` field, with callbacks owned by the current
state.  Hence every transition out of a timer-owning state cancels its
timer at exit (a timer of an exited state is never pending afterwards, so
its callback — the only source of timer-driven events — can never run), and
each newly entered state arms at most one timer. -/
theorem c2_timer_ownership_invariant :
    ∀ l : List Input,
      Inv (exec l).1 ∧
      (exec l).1.pending.length ≤ 1 ∧
      ∀ t ∈ (exec l).1.pending, cbOwner t.cb = (exec l).1.tag := by
  intro l
  exact ⟨exec_inv l, (inv_components _ (exec_inv l)).1, (inv_components _ (exec_inv l)).2⟩

/-- Claim C1 counterexample: with the machine in the Volume state and the
recorded direction volume-down (reached by a VolumeDown press from Base),
processing a VolumeUp-Release does not leave the machine in the Volume
state: the code falls through to the unexpected-key path and forces Base. -/
theorem c1_counterexample :
    (process true pressVolDownM Signal.volumeUpRelease).machine.tag = StateTag.base ∧
    StateTag.base ≠ StateTag.volume ∧
    pressVolDownM.tag = StateTag.volume ∧
    pressVolDownM.volumeDirection = some Signal.volumeDownPress := by
  decide

/-- Claim C1 (amended): in the Volume state, a Release of the opposite
direction to the recorded one emits no high-level event but is logged as an
unexpected key and forces the machine back to Base; the other signals not
listed in the Volume row set (Home/Sleep releases and volume presses) are
ignored: no event, no warning, and the machine is left entirely unchanged,
still in the Volume state. -/
theorem c1_amended_volume_release :
    ∀ (sc : Bool) (m : Machine), m.tag = StateTag.volume →
      ((m.volumeDirection ≠ some Signal.volumeUpPress →
          (process sc m .volumeUpRelease).events = [] ∧
          (process sc m .volumeUpRelease).warned = true ∧
          (process sc m .volumeUpRelease).machine.tag = .base) ∧
       (m.volumeDirection ≠ some Signal.volumeDownPress →
          (process sc m .volumeDownRelease).events = [] ∧
          (process sc m .volumeDownRelease).warned = true ∧
          (process sc m .volumeDownRelease).machine.tag = .base) ∧
       (∀ ty, ty ∈ [Signal.homeRelease, Signal.sleepRelease,
                    Signal.volumeUpPress, Signal.volumeDownPress] →
          process sc m ty = ⟨m, [], false⟩)) := by
  intro sc m htag
  refine ⟨?_, ?_, ?_⟩
  · intro hdir
    simp only [process, htag]
    rw [volumeProcess.eq_def]
    simp only [if_neg hdir]
    simp [setState, enterState]
  · intro hdir
    simp only [process, htag]
    rw [volumeProcess.eq_def]
    simp only [if_neg hdir]
    simp [setState, enterState]
  · intro ty hty
    simp only [process, htag]
    simp only [List.mem_cons, List.not_mem_nil, or_false] at hty
    rcases hty with rfl | rfl | rfl | rfl
    · rfl
    · rfl
    · rfl
    · rfl

/-- Witness for the amended C1 at a concrete Volume-state machine with
direction volume-down: a VolumeUp-Release warns and forces Base with no
event, and a Home-Release is ignored leaving the machine unchanged. -/
theorem c1_amended_volume_release_witness :
    (process true pressVolDownM Signal.volumeUpRelease).events = [] ∧
    (process true pressVolDownM Signal.volumeUpRelease).warned = true ∧
    (process true pressVolDownM Signal.volumeUpRelease).machine.tag = .base ∧
    process true pressVolDownM Signal.homeRelease = ⟨pressVolDownM, [], false⟩ := by
  have h := c1_amended_volume_release true pressVolDownM (by decide)
  exact ⟨(h.1 (by decide)).1, (h.1 (by decide)).2.1, (h.1 (by decide)).2.2,
         h.2.2 _ (by decide)⟩

/-- Claim C3: the unexpected-signal policy.  Whenever processing a raw
signal takes the logged unexpected-key path, no high-level event is emitted,
the machine is forced back to the Base state, and the timers of the
abandoned state are discarded (no timer is left pending); processing is a
total function, so no input is fatal.  Moreover every raw signal outside
the Home and Sleep transition rows does take that logged path in those
states. -/
theorem c3_unexpected_signal_policy :
    ∀ (sc : Bool) (m : Machine) (ty : Signal), Inv m →
      (((process sc m ty).warned = true →
          (process sc m ty).events = [] ∧
          (process sc m ty).machine.tag = .base ∧
          (process sc m ty).machine.pending = []) ∧
       (m.tag = .home →
          ty ∈ [Signal.homePress, Signal.sleepRelease,
                Signal.volumeUpRelease, Signal.volumeDownRelease] →
          (process sc m ty).warned = true) ∧
       (m.tag = .sleep →
          ty ∈ [Signal.sleepPress, Signal.homeRelease,
                Signal.volumeUpRelease, Signal.volumeDownRelease] →
          (process sc m ty).warned = true)) := by
  intro sc m ty h
  refine ⟨?_, ?_, ?_⟩
  · intro hw
    cases htag : m.tag <;> simp only [process, htag] at hw ⊢
    · exact absurd hw (by simp [baseProcess_not_warned])
    · exact homeProcess_warned m ty h hw
    · exact sleepProcess_warned m ty h hw
    · exact volumeProcess_warned m ty h hw
    · exact wakeProcess_delegated m ty h hw
  · intro htag hty
    simp only [process, htag]
    simp only [List.mem_cons, List.not_mem_nil, or_false] at hty
    rcases hty with rfl | rfl | rfl | rfl
    · rfl
    · rfl
    · rfl
    · rfl
  · intro htag hty
    simp only [process, htag]
    simp only [List.mem_cons, List.not_mem_nil, or_false] at hty
    rcases hty with rfl | rfl | rfl | rfl
    · rfl
    · rfl
    · rfl
    · rfl

/-- Witness for C3: in the Home state (reached by a Home press with the
display on), a second Home press takes the warned path and the conclusions
hold there. -/
theorem c3_unexpected_signal_policy_witness :
    (process true pressHomeM Signal.homePress).warned = true ∧
    (process true pressHomeM Signal.homePress).events = [] ∧
    (process true pressHomeM Signal.homePress).machine.tag = .base ∧
    (process true pressHomeM Signal.homePress).machine.pending = [] := by
  have h := c3_unexpected_signal_policy true pressHomeM Signal.homePress (by decide)
  have hw := h.2.1 (by decide) (by decide)
  exact ⟨hw, (h.1 hw).1, (h.1 hw).2.1, (h.1 hw).2.2⟩

/-- Claim C5: a VolumeUp press held for REPEAT_DELAY plus three
REPEAT_INTERVAL ticks emits the first `volumeup` when the REPEAT_DELAY
timer fires, then exactly one more per REPEAT_INTERVAL tick (three more),
marks the state as having repeated, and the eventual matching release
emits no extra `volumeup`. -/
theorem c5_volume_autorepeat :
    (exec [.raw true .volumeUpPress, .wait REPEAT_DELAY, .wait REPEAT_INTERVAL,
           .wait REPEAT_INTERVAL, .wait REPEAT_INTERVAL, .raw true .volumeUpRelease]).2
        = [[], [.volumeup], [.volumeup], [.volumeup], [.volumeup], []] ∧
    (exec [.raw true .volumeUpPress, .wait REPEAT_DELAY, .wait REPEAT_INTERVAL,
           .wait REPEAT_INTERVAL, .wait REPEAT_INTERVAL]).1.volumeRepeating = true ∧
    (exec [.raw true .volumeUpPress, .wait REPEAT_DELAY, .wait REPEAT_INTERVAL,
           .wait REPEAT_INTERVAL, .wait REPEAT_INTERVAL, .raw true .volumeUpRelease]).1.tag
        = .base := by
  decide

/-- Claim C8: a Home press followed by a Sleep press (before either
release) fires exactly one `home+sleep` event and returns to Base, and the
subsequent releases of both buttons, processed in Base, produce no further
events. -/
theorem c8_home_sleep_combo :
    (exec [.raw true .homePress, .raw true .sleepPress,
           .raw true .homeRelease, .raw true .sleepRelease]).2
        = [[], [.homeSleep], [], []] ∧
    (exec [.raw true .homePress, .raw true .sleepPress]).1.tag = .base ∧
    (exec [.raw true .homePress, .raw true .sleepPress,
           .raw true .homeRelease, .raw true .sleepRelease]).1.tag = .base := by
  decide

/-- Claim C10: every entry into the Volume state resets the has-repeated
flag and overwrites the direction with the triggering press, so state from
an earlier volume gesture never leaks into a new one; in particular a tap
performed after a previous autorepeated gesture still emits its single
event on release. -/
theorem c10_volume_enter_reset :
    (∀ (m : Machine) (ty : Signal),
        (setState m .volume (some ty)).volumeRepeating = false ∧
        (setState m .volume (some ty)).volumeDirection = some ty) ∧
    (exec [.raw true .volumeUpPress, .wait REPEAT_DELAY, .raw true .volumeUpRelease,
           .raw true .volumeDownPress, .raw true .volumeDownRelease]).2
        = [[], [.volumeup], [], [], [.volumedown]] ∧
    (exec [.raw true .volumeUpPress, .wait REPEAT_DELAY, .raw true .volumeUpRelease,
           .raw true .volumeDownPress, .raw true .volumeDownRelease]).1.tag = .base := by
  refine ⟨?_, by decide, by decide⟩
  intro m ty
  constructor <;> simp [setState, enterState, setTimeoutM]

/-- Claim C6: a VolumeDown press followed by a VolumeDown release before
REPEAT_DELAY elapses (no repeat-timer firing in between) emits exactly one
`volumedown`, at the moment the release is processed and not before, and
the final state is Base. -/
theorem c6_volume_tap :
    ∀ d : Nat, d < REPEAT_DELAY →
      (exec [.raw true .volumeDownPress, .wait d, .raw true .volumeDownRelease]).2
          = [[], [], [HEvent.volumedown]] ∧
      (exec [.raw true .volumeDownPress, .wait d,
             .raw true .volumeDownRelease]).1.tag = .base := by
  intro d hd
  have hd' : d < 700 := hd
  have hs1 : step init (Input.raw true Signal.volumeDownPress) = (pressVolDownM, []) := by
    decide
  have h0 : pressVolDownM.now = 0 := by decide
  have hnd : ¬ (700 : Nat) ≤ pressVolDownM.now + d := by
    rw [h0]
    omega
  have hs2 : step pressVolDownM (Input.wait d)
      = ({ pressVolDownM with now := pressVolDownM.now + d }, []) := by
    simp only [step]
    exact elapse_not_yet pressVolDownM d 1 700 .volumeRepeatCb (by decide) hnd
  have htagv : pressVolDownM.tag = StateTag.volume := by decide
  have hdir : pressVolDownM.volumeDirection = some Signal.volumeDownPress := by decide
  have hrep : pressVolDownM.volumeRepeating = false := by decide
  have hs3 : step { pressVolDownM with now := pressVolDownM.now + d }
        (Input.raw true Signal.volumeDownRelease)
      = (setState { pressVolDownM with now := pressVolDownM.now + d } .base
           (some .volumeDownRelease), [HEvent.volumedown]) := by
    simp [step, process, htagv, volumeProcess, hdir, hrep]
  have hfinal := exec_three _ _ _ _ _ _ _ _ _ hs1 hs2 hs3
  exact ⟨by rw [hfinal], by rw [hfinal]; rfl⟩

/-- Witness for C6 at the concrete wait of 100 ms. -/
theorem c6_volume_tap_witness :
    (100 : Nat) < REPEAT_DELAY ∧
    (exec [.raw true .volumeDownPress, .wait 100, .raw true .volumeDownRelease]).2
        = [[], [], [HEvent.volumedown]] := by
  have h := c6_volume_tap 100 (by decide)
  exact ⟨by decide, h.1⟩

/-- Claim C7: with the display on, a Home press followed by a Home release
before the HOLD_INTERVAL timer fires emits exactly one `home` event (no
`holdhome`, no other event) and leaves the machine in Base. -/
theorem c7_home_tap :
    ∀ d : Nat, d < HOLD_INTERVAL →
      (exec [.raw true .homePress, .wait d, .raw true .homeRelease]).2
          = [[], [], [HEvent.home]] ∧
      (exec [.raw true .homePress, .wait d, .raw true .homeRelease]).1.tag = .base := by
  intro d hd
  have hd' : d < 1500 := hd
  have hs1 : step init (Input.raw true Signal.homePress) = (pressHomeM, []) := by
    decide
  have h0 : pressHomeM.now = 0 := by decide
  have hnd : ¬ (1500 : Nat) ≤ pressHomeM.now + d := by
    rw [h0]
    omega
  have hs2 : step pressHomeM (Input.wait d)
      = ({ pressHomeM with now := pressHomeM.now + d }, []) := by
    simp only [step]
    exact elapse_not_yet pressHomeM d 1 1500 .holdHomeCb (by decide) hnd
  have htagh : pressHomeM.tag = StateTag.home := by decide
  have hs3 : step { pressHomeM with now := pressHomeM.now + d }
        (Input.raw true Signal.homeRelease)
      = (setState { pressHomeM with now := pressHomeM.now + d } .base
           (some .homeRelease), [HEvent.home]) := by
    simp [step, process, htagh, homeProcess]
  have hfinal := exec_three _ _ _ _ _ _ _ _ _ hs1 hs2 hs3
  exact ⟨by rw [hfinal], by rw [hfinal]; rfl⟩

/-- Witness for C7 at the concrete wait of 100 ms. -/
theorem c7_home_tap_witness :
    (100 : Nat) < HOLD_INTERVAL ∧
    (exec [.raw true .homePress, .wait 100, .raw true .homeRelease]).2
        = [[], [], [HEvent.home]] := by
  have h := c7_home_tap 100 (by decide)
  exact ⟨by decide, h.1⟩

/-- Claim C4: from Base with the display off, a Sleep press emits exactly
one `wake` immediately and enters Wake with the sleep delegate; held at
least HOLD_INTERVAL with no release, exactly one additional `holdsleep` is
emitted and the machine returns to Base; released before the threshold, no
`sleep` and no `holdsleep` is emitted at all. -/
theorem c4_wake_then_hold :
    ∀ d e : Nat, HOLD_INTERVAL ≤ d → e < HOLD_INTERVAL →
      ((exec [.raw false .sleepPress]).2 = [[HEvent.wake]] ∧
       (exec [.raw false .sleepPress]).1.tag = .wake ∧
       (exec [.raw false .sleepPress]).1.wakeDelegate = some .sleep) ∧
      ((exec [.raw false .sleepPress, .wait d]).2 = [[HEvent.wake], [HEvent.holdsleep]] ∧
       (exec [.raw false .sleepPress, .wait d]).1.tag = .base) ∧
      ((exec [.raw false .sleepPress, .wait e, .raw false .sleepRelease]).2
          = [[HEvent.wake], [], []] ∧
       (exec [.raw false .sleepPress, .wait e,
              .raw false .sleepRelease]).1.tag = .base) := by
  intro d e hd he
  have hs1 : step init (Input.raw false Signal.sleepPress) = (wakeSleepM, [HEvent.wake]) := by
    decide
  have h0 : wakeSleepM.now = 0 := by decide
  refine ⟨by decide, ?_, ?_⟩
  · -- held at least HOLD_INTERVAL
    have hdl : HOLD_INTERVAL ≤ wakeSleepM.now + d := by
      rw [h0]
      simpa using hd
    have hrc : runCallback { wakeSleepM with now := HOLD_INTERVAL, pending := [] }
          (.wakeHoldCb (some .sleepPress))
        = (wakeHoldFiredM, [HEvent.holdsleep]) := by
      decide
    have hs2 : step wakeSleepM (Input.wait d)
        = ({ wakeHoldFiredM with now := wakeSleepM.now + d }, [HEvent.holdsleep]) := by
      simp only [step]
      rw [elapse_fire_one wakeSleepM d 1 HOLD_INTERVAL (.wakeHoldCb (some .sleepPress))
            (by decide) hdl (by decide), hrc]
    have hfinal := exec_two _ _ _ _ _ _ hs1 hs2
    refine ⟨by rw [hfinal], ?_⟩
    rw [hfinal]
    exact (by decide : wakeHoldFiredM.tag = StateTag.base)
  · -- released before the threshold
    have he' : e < 1500 := he
    have hne : ¬ (1500 : Nat) ≤ wakeSleepM.now + e := by
      rw [h0]
      omega
    have hs2 : step wakeSleepM (Input.wait e)
        = ({ wakeSleepM with now := wakeSleepM.now + e }, []) := by
      simp only [step]
      exact elapse_not_yet wakeSleepM e 1 1500 (.wakeHoldCb (some .sleepPress))
        (by decide) hne
    have htagw : wakeSleepM.tag = StateTag.wake := by decide
    have hs3 : step { wakeSleepM with now := wakeSleepM.now + e }
          (Input.raw false Signal.sleepRelease)
        = (setState { wakeSleepM with now := wakeSleepM.now + e } .base
             (some .sleepRelease), []) := by
      simp [step, process, htagw, wakeProcess]
    have hfinal := exec_three _ _ _ _ _ _ _ _ _ hs1 hs2 hs3
    exact ⟨by rw [hfinal], by rw [hfinal]; rfl⟩

/-- Witness for C4 at the concrete hold of exactly HOLD_INTERVAL and an
early release after 300 ms. -/
theorem c4_wake_then_hold_witness :
    HOLD_INTERVAL ≤ 1500 ∧ (300 : Nat) < HOLD_INTERVAL ∧
    (exec [.raw false .sleepPress, .wait 1500]).2
        = [[HEvent.wake], [HEvent.holdsleep]] ∧
    (exec [.raw false .sleepPress, .wait 300, .raw false .sleepRelease]).2
        = [[HEvent.wake], [], []] := by
  have h := c4_wake_then_hold 1500 300 (by decide) (by decide)
  exact ⟨by decide, by decide, h.2.1.1, h.2.2.1⟩

/-- Claim C9: a Sleep press processed in the Volume state cancels Volume's
pending autorepeat timer on exit and arms Sleep's own fresh HOLD_INTERVAL
hold timer on entry: no event is emitted, the machine is in Sleep with
exactly one pending timer — the fresh hold timer, not an autorepeat
callback — and a subsequent hold of HOLD_INTERVAL still produces exactly
one `holdsleep` and returns to Base. -/
theorem c9_volume_to_sleep :
    ∀ (sc : Bool) (m : Machine), Inv m → m.tag = .volume →
      (process sc m .sleepPress).events = [] ∧
      (process sc m .sleepPress).machine.tag = .sleep ∧
      (process sc m .sleepPress).machine.pending
          = [⟨m.nextId, m.now + HOLD_INTERVAL, .holdSleepCb⟩] ∧
      (process sc m .sleepPress).machine.sleepTimer = some m.nextId ∧
      (∀ t ∈ (process sc m .sleepPress).machine.pending, t.cb ≠ .volumeRepeatCb) ∧
      (elapse (process sc m .sleepPress).machine HOLD_INTERVAL).2 = [HEvent.holdsleep] ∧
      (elapse (process sc m .sleepPress).machine HOLD_INTERVAL).1.tag = .base := by
  intro sc m h htag
  have hproc : process sc m .sleepPress
      = ⟨setState m .sleep (some .sleepPress), [], false⟩ := by
    simp [process, htag, volumeProcess]
  have hexit := exit_pending m h
  have heta := exitState_eta m
  have hpend : (setState m .sleep (some .sleepPress)).pending
      = [⟨m.nextId, m.now + HOLD_INTERVAL, .holdSleepCb⟩] := by
    unfold setState enterState
    simp [setTimeoutM, hexit, heta.1, heta.2.1]
  have hstimer : (setState m .sleep (some .sleepPress)).sleepTimer = some m.nextId := by
    unfold setState enterState
    simp [setTimeoutM, heta.2.1]
  have htag2 : (setState m .sleep (some .sleepPress)).tag = .sleep := by
    unfold setState enterState
    simp [setTimeoutM]
  have hnow2 : (setState m .sleep (some .sleepPress)).now = m.now := by
    unfold setState enterState
    simp [setTimeoutM, heta.1]
  have hpost : (runCallback { setState m .sleep (some .sleepPress) with
        now := m.now + HOLD_INTERVAL, pending := [] } .holdSleepCb).1.pending = [] := by
    show (setState { setState m .sleep (some .sleepPress) with
        now := m.now + HOLD_INTERVAL, pending := [] } .base none).pending = []
    exact setState_base_pending_of_empty _ _ rfl
  have hfire := elapse_fire_one (setState m .sleep (some .sleepPress)) HOLD_INTERVAL
      m.nextId (m.now + HOLD_INTERVAL) .holdSleepCb hpend (by rw [hnow2]) hpost
  rw [hproc]
  refine ⟨rfl, htag2, hpend, hstimer, ?_, ?_, ?_⟩
  · intro t ht
    rw [hpend] at ht
    simp only [List.mem_singleton] at ht
    rw [ht]
    simp
  · show (elapse (setState m .sleep (some .sleepPress)) HOLD_INTERVAL).2 = [HEvent.holdsleep]
    rw [hfire]
    rfl
  · show (elapse (setState m .sleep (some .sleepPress)) HOLD_INTERVAL).1.tag = .base
    rw [hfire]
    rfl

/-- Witness for C9 at the concrete Volume machine reached by a VolumeUp
press. -/
theorem c9_volume_to_sleep_witness :
    (process true pressVolUpM Signal.sleepPress).events = [] ∧
    (process true pressVolUpM Signal.sleepPress).machine.tag = .sleep ∧
    (elapse (process true pressVolUpM Signal.sleepPress).machine HOLD_INTERVAL).2
        = [HEvent.holdsleep] := by
  have h := c9_volume_to_sleep true pressVolUpM (by decide) (by decide)
  exact ⟨h.1, h.2.1, h.2.2.2.2.2.1⟩

end HardwareButtons
